import Mathlib

/-!
A shallow embedding of the bulk DM dispatch engine of `src/bot.py`
(repository DMSEND).

The embedding follows the source function `send_mass_dm` (lines 67-182),
the session registry `stop_flags` (lines 23, 74-75, 108, 159, 163, 182,
316-317), the member filtering (lines 79-83), the per-recipient send /
rate-limit / retry block (lines 111-142), the progress reporting
(lines 95-101, 144-156, 162-180) and the delay-input clamping in
`MessageModal.on_submit` (lines 212-218).

Platform calls (`member.create_dm()`, `dm_channel.send(...)`) are modelled
by an environment that records, per recipient, the platform's response to
each call the loop can issue.  A crucial piece of Python semantics kept by
the embedding: the local variable `dm_channel` is assigned only when
`member.create_dm()` returns, and it persists across loop iterations, so
when `create_dm` raises, the retry at line 131 sees either an unbound name
(NameError, first ever iteration to reach it) or the *stale* channel of the
most recent successful creation.  The mutable cancellation flag
`stop_flags[session_id]` is modelled as a Boolean schedule indexed by the
number of reads of the flag performed so far (the reads happen in a fixed
program order: loop head at line 108, pre-delay check at line 159, final
check at line 163).
-/

namespace DMSend

/-- A guild member as the dispatch engine sees it (`guild.members`):
numeric id, display name, ids of held roles, and the bot flag. -/
structure Member where
  id : Nat
  displayName : String
  roleIds : List Nat
  isBot : Bool
deriving DecidableEq, Repr

/-- `member.mention` of the platform library: the string form used by the
placeholder substitution at line 112. -/
def Member.mention (m : Member) : String :=
  "<@" ++ toString m.id ++ ">"

/-- The response of one platform call, as the `try`/`except` ladder at
lines 114-142 distinguishes them: success with a value, `discord.Forbidden`
(caught first, line 119), `discord.HTTPException` with a status code and an
optional `retry_after` attribute (line 122-124), or any other exception
(line 140). -/
inductive CallResult (α : Type) where
  | ok (val : α)
  | forbiddenErr
  | httpExn (status : Nat) (retryAfter : Option ℚ)
  | otherExn
deriving DecidableEq, Repr

/-- The platform's responses for one recipient: the result of
`member.create_dm()` (line 115), of the first `dm_channel.send` (line 116),
and of the retry `dm_channel.send` (line 131) should it be issued. -/
structure RecipientEnv where
  createDm : CallResult Nat
  sendFirst : CallResult Unit
  sendRetry : CallResult Unit
deriving DecidableEq, Repr

/-- The per-recipient outcome, as folded into the counters at lines
117, 120, 132, 135, 138, 141 (`sentOk` and `sentAfterRetry` both increment
`sent`). -/
inductive Outcome where
  | sentOk
  | sentAfterRetry
  | dmClosed
  | failed
deriving DecidableEq, Repr

/-- A platform call actually issued by the loop: a private-channel creation
for a member, or a message send on a channel with a concrete text. -/
inductive PCall where
  | createDm (memberId : Nat)
  | send (channelId : Nat) (text : String)
deriving DecidableEq, Repr

/-- Terminal / progress status, as `make_progress_embed` distinguishes them
(lines 37-48). -/
inductive Status where
  | inProgress
  | complete
  | stopped
  | errored
deriving DecidableEq, Repr

/-- The counter payload pushed to the progress sinks
(arguments of `make_progress_embed`). -/
structure Snapshot where
  sent : Nat
  failed : Nat
  dmClosed : Nat
  total : Nat
  status : Status
deriving DecidableEq, Repr

/-- An observable event of one dispatch run: a plain text message
(`followup.send` / `log_channel.send` of text), the initial progress embed
(lines 95-101), a periodic progress embed update (lines 149-154), or the
final summary embed (lines 167-171). -/
inductive Event where
  | note (text : String)
  | progressInit (snap : Snapshot)
  | progressUpdate (snap : Snapshot)
  | finalSummary (snap : Snapshot)
deriving DecidableEq, Repr

/-- `true` exactly on the final summary event. -/
def Event.isFinal : Event → Bool
  | .finalSummary _ => true
  | _ => false

/-- Result of processing one recipient (the body of lines 111-142):
the outcome, the value of the `dm_channel` variable afterwards, the
platform calls issued, the backoff actually slept (line 128, `None` when no
rate limit fired), the `status_text` string, and the events emitted during
processing (the rate-limit wait note of lines 126-127). -/
structure RecipientResult where
  outcome : Outcome
  dmChannel : Option Nat
  calls : List PCall
  backoff : Option ℚ
  statusText : String
  events : List Event
deriving DecidableEq, Repr

/-- Helper for `pythonReplace`: scan the character list left to right; on a
match of `pat` emit `rep` and skip the matched region (non-overlapping),
otherwise keep the character.  The fuel argument makes the recursion
structural (one unit per inspected position suffices). -/
def replaceFrom (pat rep : List Char) : Nat → List Char → List Char
  | _, [] => []
  | 0, rest => rest
  | fuel + 1, c :: rest =>
    if pat = (c :: rest).take pat.length then
      rep ++ replaceFrom pat rep fuel ((c :: rest).drop pat.length)
    else
      c :: replaceFrom pat rep fuel rest

/-- Python `str.replace(pat, rep)`: replace every non-overlapping
occurrence of `pat`, scanning left to right.  Defined by fuel-based
structural recursion so that closed instances evaluate inside the kernel;
the engine only calls it with the non-empty literal pattern
`"<user>"` (line 112). -/
def pythonReplace (s pat rep : String) : String :=
  ⟨replaceFrom pat.data rep.data s.data.length s.data⟩

/-- Lines 111-142 of `send_mass_dm`: process one recipient.
`dmChannel` is the value of the Python variable `dm_channel` on entry
(`none` = never assigned so far).  `final_message` is computed once, before
the first attempt (line 112); `pythonReplace` replaces every occurrence,
as Python `str.replace` does.  On a 429 from `create_dm`, the retry at
line 131 evaluates the name `dm_channel`: unbound raises `NameError`
(caught by the inner `except Exception`, line 134), otherwise the send goes
out on the stale channel. -/
def processRecipient (logChannel : Bool) (env : RecipientEnv) (m : Member)
    (messageText : String) (dmChannel : Option Nat) : RecipientResult :=
  let finalMessage := pythonReplace messageText "<user>" m.mention
  let name := m.displayName
  match env.createDm with
  | .ok ch =>
    match env.sendFirst with
    | .ok _ =>
      { outcome := .sentOk, dmChannel := some ch,
        calls := [.createDm m.id, .send ch finalMessage], backoff := none,
        statusText := "✅ Sent to **" ++ name ++ "**", events := [] }
    | .forbiddenErr =>
      { outcome := .dmClosed, dmChannel := some ch,
        calls := [.createDm m.id, .send ch finalMessage], backoff := none,
        statusText := "🔒 " ++ name ++ " - DMs disabled", events := [] }
    | .httpExn s ra =>
      if s = 429 then
        let retryAfter := ra.getD 5
        let waitNote := "⏱️ Rate limited! Waiting " ++ toString retryAfter ++ "s..."
        let evs := if logChannel then [Event.note waitNote] else []
        match env.sendRetry with
        | .ok _ =>
          { outcome := .sentAfterRetry, dmChannel := some ch,
            calls := [.createDm m.id, .send ch finalMessage, .send ch finalMessage],
            backoff := some retryAfter,
            statusText := "✅ Sent to **" ++ name ++ "** (after retry)", events := evs }
        | _ =>
          { outcome := .failed, dmChannel := some ch,
            calls := [.createDm m.id, .send ch finalMessage, .send ch finalMessage],
            backoff := some retryAfter,
            statusText := "❌ Failed: **" ++ name ++ "** (after retry)", events := evs }
      else
        { outcome := .failed, dmChannel := some ch,
          calls := [.createDm m.id, .send ch finalMessage], backoff := none,
          statusText := "❌ Failed: **" ++ name ++ "** (" ++ toString s ++ ")", events := [] }
    | .otherExn =>
      { outcome := .failed, dmChannel := some ch,
        calls := [.createDm m.id, .send ch finalMessage], backoff := none,
        statusText := "❌ Failed: **" ++ name ++ "** - Error", events := [] }
  | .forbiddenErr =>
    { outcome := .dmClosed, dmChannel := dmChannel,
      calls := [.createDm m.id], backoff := none,
      statusText := "🔒 " ++ name ++ " - DMs disabled", events := [] }
  | .httpExn s ra =>
    if s = 429 then
      let retryAfter := ra.getD 5
      let waitNote := "⏱️ Rate limited! Waiting " ++ toString retryAfter ++ "s..."
      let evs := if logChannel then [Event.note waitNote] else []
      match dmChannel with
      | none =>
        { outcome := .failed, dmChannel := none,
          calls := [.createDm m.id], backoff := some retryAfter,
          statusText := "❌ Failed: **" ++ name ++ "** (after retry)", events := evs }
      | some ch =>
        match env.sendRetry with
        | .ok _ =>
          { outcome := .sentAfterRetry, dmChannel := some ch,
            calls := [.createDm m.id, .send ch finalMessage],
            backoff := some retryAfter,
            statusText := "✅ Sent to **" ++ name ++ "** (after retry)", events := evs }
        | _ =>
          { outcome := .failed, dmChannel := some ch,
            calls := [.createDm m.id, .send ch finalMessage],
            backoff := some retryAfter,
            statusText := "❌ Failed: **" ++ name ++ "** (after retry)", events := evs }
    else
      { outcome := .failed, dmChannel := dmChannel,
        calls := [.createDm m.id], backoff := none,
        statusText := "❌ Failed: **" ++ name ++ "** (" ++ toString s ++ ")", events := [] }
  | .otherExn =>
    { outcome := .failed, dmChannel := dmChannel,
      calls := [.createDm m.id], backoff := none,
      statusText := "❌ Failed: **" ++ name ++ "** - Error", events := [] }

/-- Increment applied to `sent` by the given outcome (lines 117, 132). -/
def outcomeSentInc : Outcome → Nat
  | .sentOk => 1
  | .sentAfterRetry => 1
  | _ => 0

/-- Increment applied to `failed` (lines 135, 138, 141). -/
def outcomeFailedInc : Outcome → Nat
  | .failed => 1
  | _ => 0

/-- Increment applied to `dm_closed` (line 120). -/
def outcomeDmClosedInc : Outcome → Nat
  | .dmClosed => 1
  | _ => 0

/-- Mutable state of the dispatch loop of lines 103-160: the three
counters, the Python variable `dm_channel`, the number of reads of the
cancellation flag performed so far, the number of recipients processed, the
ids of contacted members, the accumulated platform calls, the sequence of
counter triples after each iteration, and the events emitted so far. -/
structure LoopState where
  sent : Nat
  failed : Nat
  dmClosed : Nat
  dmChannel : Option Nat
  reads : Nat
  processed : Nat
  contacted : List Nat
  calls : List PCall
  history : List (Nat × Nat × Nat)
  events : List Event
deriving DecidableEq, Repr

/-- One full iteration of the `for` loop at line 107 that processes its
recipient (i.e. the head flag check at line 108 read `False`): process the
member, fold the outcome into the counters, log every 3rd status text
(lines 144-146), update the progress embeds every 5th member or on the last
one (lines 148-156), and consume the pre-delay flag read of line 159 unless
the member is the last one (`i < len(members) - 1` short-circuits the read
away on the last index).  The head read itself is accounted here too. -/
def stepRecipient (logChannel : Bool) (total : Nat) (messageText : String)
    (st : LoopState) (m : Member) (env : RecipientEnv) : LoopState :=
  let pr := processRecipient logChannel env m messageText st.dmChannel
  let sent := st.sent + outcomeSentInc pr.outcome
  let failed := st.failed + outcomeFailedInc pr.outcome
  let dmClosed := st.dmClosed + outcomeDmClosedInc pr.outcome
  let i1 := st.processed + 1
  let logEvents := if logChannel && i1 % 3 = 0 then [Event.note pr.statusText] else []
  let updEvents :=
    if i1 % 5 = 0 || i1 = total then
      [Event.progressUpdate ⟨sent, failed, dmClosed, total, .inProgress⟩]
    else []
  { sent := sent, failed := failed, dmClosed := dmClosed,
    dmChannel := pr.dmChannel,
    reads := st.reads + 1 + (if i1 < total then 1 else 0),
    processed := i1,
    contacted := st.contacted ++ [m.id],
    calls := st.calls ++ pr.calls,
    history := st.history ++ [(sent, failed, dmClosed)],
    events := st.events ++ pr.events ++ logEvents ++ updEvents }

/-- The `for` loop of lines 107-160.  At each head the flag is read
(line 108); reading `True` breaks out of the loop at once (the read is
consumed, the remaining recipients are dropped), otherwise the iteration
runs via `stepRecipient`. -/
def runFrom (logChannel : Bool) (total : Nat) (flag : Nat → Bool)
    (messageText : String) : LoopState → List (Member × RecipientEnv) → LoopState
  | st, [] => st
  | st, (m, env) :: tl =>
    if flag st.reads then { st with reads := st.reads + 1 }
    else runFrom logChannel total flag messageText
      (stepRecipient logChannel total messageText st m env) tl

/-- Lines 74-75: `stop_flags[session_id] = False`.  The entry for the
session id is unconditionally overwritten with `False`; there is no check
for an existing live session, so the start always proceeds.  Returns the
new entry value and whether the dispatch goes ahead. -/
def openSession (_prev : Option Bool) : Option Bool × Bool :=
  (some false, true)

/-- Lines 79-83: drop bot accounts, then, in role mode with a non-empty
role selection, keep members holding at least one selected role
(`any(str(r.id) in role_ids for r in m.roles)`). -/
def filterMembers (mode : String) (roleIds : List String)
    (allMembers : List (Member × RecipientEnv)) : List (Member × RecipientEnv) :=
  let ms := allMembers.filter (fun p => !p.1.isBot)
  if mode == "roles" && !roleIds.isEmpty then
    ms.filter (fun p => p.1.roleIds.any (fun r => roleIds.contains (toString r)))
  else ms

/-- Final data of a run that entered the dispatch loop. -/
structure FinalStats where
  sent : Nat
  failed : Nat
  dmClosed : Nat
  total : Nat
  status : Status
  processed : Nat
  contacted : List Nat
  calls : List PCall
  history : List (Nat × Nat × Nat)
deriving DecidableEq, Repr

/-- Everything observable about one `send_mass_dm` invocation: the emitted
events, the state of the `stop_flags` entry for the session id after the
call returns, and the loop statistics (`none` when the call returned before
the loop: guild not found, or zero recipients). -/
structure RunOutput where
  events : List Event
  entryAfter : Option Bool
  stats : Option FinalStats
deriving DecidableEq, Repr

/-- Line 78. -/
def fetchingText : String := "⏳ Fetching server members..."

/-- Line 87. -/
def noMembersText : String := "❌ No members found matching criteria."

/-- Line 71. -/
def noGuildText : String := "❌ Cannot find the guild. Check GUILD_ID."

/-- Loop state on entry of line 103-107. -/
def initialState : LoopState :=
  { sent := 0, failed := 0, dmClosed := 0, dmChannel := none, reads := 0,
    processed := 0, contacted := [], calls := [], history := [], events := [] }

/-- The events emitted by a run that enters the dispatch loop: the fetching
notice (line 78), the initial progress embed (lines 95-101), the loop's own
events, the final summary embed (lines 167-173) and, with a log channel
configured, the textual summary posted there (lines 175-180). -/
def loopEvents (logChannel : Bool) (total : Nat) (flag : Nat → Bool)
    (messageText : String) (members : List (Member × RecipientEnv)) : List Event :=
  let st := runFrom logChannel total flag messageText initialState members
  let wasStopped := flag st.reads
  let status := if wasStopped then Status.stopped else Status.complete
  let summaryNote :=
    "**" ++ (if wasStopped then "Stopped" else "Complete") ++ "!** Sent: "
      ++ toString st.sent ++ " | Failed: " ++ toString st.failed
      ++ " | DM Closed: " ++ toString st.dmClosed ++ " | Total: " ++ toString total
  [Event.note fetchingText, Event.progressInit ⟨0, 0, 0, total, Status.inProgress⟩]
    ++ st.events
    ++ [Event.finalSummary ⟨st.sent, st.failed, st.dmClosed, total, status⟩]
    ++ (if logChannel then [Event.note summaryNote] else [])

/-- The final statistics of a run that entered the dispatch loop: the loop
result of lines 107-160 together with the terminal status computed at
lines 163-164 from the last flag read. -/
def runStats (logChannel : Bool) (total : Nat) (flag : Nat → Bool)
    (messageText : String) (members : List (Member × RecipientEnv)) : FinalStats :=
  let st := runFrom logChannel total flag messageText initialState members
  ⟨st.sent, st.failed, st.dmClosed, total,
   if flag st.reads then Status.stopped else Status.complete,
   st.processed, st.contacted, st.calls, st.history⟩

/-- `send_mass_dm` (lines 67-182).  `flag` is the value returned by the
k-th read of `stop_flags.get(session_id, False)` during this run (the only
writers during a run set it to `True`, hence the monotonicity hypotheses in
the theorems below).  `entryBefore` is the `stop_flags` entry for the
session id before the call (a live session, if any). -/
def send_mass_dm (logChannel guildFound : Bool) (messageText mode : String)
    (roleIds : List String) (allMembers : List (Member × RecipientEnv))
    (flag : Nat → Bool) (entryBefore : Option Bool) : RunOutput :=
  if !guildFound then
    { events := [.note noGuildText], entryAfter := entryBefore, stats := none }
  else
    let _entry := (openSession entryBefore).1
    let members := filterMembers mode roleIds allMembers
    let total := members.length
    if total = 0 then
      { events := [.note fetchingText, .note noMembersText],
        entryAfter := (openSession entryBefore).1, stats := none }
    else
      { events := loopEvents logChannel total flag messageText members,
        entryAfter := none,
        stats := some (runStats logChannel total flag messageText members) }

/-- Lines 212-218 of `MessageModal.on_submit`: the delay accepted at the
boundary.  `parse` stands for Python `float(...)` (`none` = `ValueError`);
an empty input string falls back to the literal `"2"` before parsing
(`self.delay_input.value or "2"`); a successful parse is clamped by
`max(0.5, min(delay_sec, 30))`; a parse failure defaults to `2.0`. -/
def on_submit_delay (parse : String → Option ℚ) (value : String) : ℚ :=
  match parse (if value = "" then "2" else value) with
  | some d => max (1/2 : ℚ) (min d 30)
  | none => 2

/-- Demo member. -/
def mA : Member := ⟨1, "alice", [], false⟩

/-- Demo member. -/
def mB : Member := ⟨2, "bob", [], false⟩

/-- Environment in which every call succeeds (channel id 11). -/
def envAllOk : RecipientEnv := ⟨.ok 11, .ok (), .ok ()⟩

/-- Environment in which `create_dm` raises a 429 without `retry_after`,
while any send that does go out succeeds. -/
def envCreate429 : RecipientEnv := ⟨.httpExn 429 none, .ok (), .ok ()⟩

/-- Environment in which `create_dm` succeeds (channel id 11), the first
send raises a 429 without `retry_after`, and the retry succeeds. -/
def envSend429 : RecipientEnv := ⟨.ok 11, .httpExn 429 none, .ok ()⟩

/-- Environment in which `create_dm` raises `discord.Forbidden`. -/
def envForbidden : RecipientEnv := ⟨.forbiddenErr, .ok (), .ok ()⟩

/-- Environment in which `create_dm` raises an unclassified exception. -/
def envOtherExn : RecipientEnv := ⟨.otherExn, .ok (), .ok ()⟩

/-- Cancellation schedule that never fires. -/
def flagNever : Nat → Bool := fun _ => false

/-- Cancellation schedule that fires from the third flag read on. -/
def flagFromTwo : Nat → Bool := fun k => decide (2 ≤ k)

/-- Statistics of the demo run that sends "m" to the single member `mA`
with no cancellation: used by witnesses below. -/
def sDemoComplete : FinalStats :=
  ⟨1, 0, 0, 1, Status.complete, 1, [1], [.createDm 1, .send 11 "m"], [(1, 0, 0)]⟩

/-- Statistics of the demo run over `[mA, mB]` cancelled by `flagFromTwo`
after the first recipient: used by witnesses below. -/
def sDemoStopped : FinalStats :=
  ⟨1, 0, 0, 2, Status.stopped, 1, [1], [.createDm 1, .send 11 "m"], [(1, 0, 0)]⟩

/-- A processed iteration advances `processed` by exactly one. -/
theorem stepRecipient_processed (lc : Bool) (total : Nat) (msg : String)
    (st : LoopState) (m : Member) (env : RecipientEnv) :
    (stepRecipient lc total msg st m env).processed = st.processed + 1 := rfl

/-- A processed iteration appends exactly its member's id to `contacted`. -/
theorem stepRecipient_contacted (lc : Bool) (total : Nat) (msg : String)
    (st : LoopState) (m : Member) (env : RecipientEnv) :
    (stepRecipient lc total msg st m env).contacted = st.contacted ++ [m.id] := rfl

/-- A processed iteration appends exactly its post-iteration counter triple
to `history`. -/
theorem stepRecipient_history (lc : Bool) (total : Nat) (msg : String)
    (st : LoopState) (m : Member) (env : RecipientEnv) :
    (stepRecipient lc total msg st m env).history
      = st.history ++ [((stepRecipient lc total msg st m env).sent,
          (stepRecipient lc total msg st m env).failed,
          (stepRecipient lc total msg st m env).dmClosed)] := rfl

/-- Every branch of the `try`/`except` ladder increments exactly one of the
three counters, so a processed iteration grows the counter sum by one. -/
theorem stepRecipient_sum (lc : Bool) (total : Nat) (msg : String)
    (st : LoopState) (m : Member) (env : RecipientEnv) :
    (stepRecipient lc total msg st m env).sent
      + (stepRecipient lc total msg st m env).failed
      + (stepRecipient lc total msg st m env).dmClosed
      = st.sent + st.failed + st.dmClosed + 1 := by
  cases h : (processRecipient lc env m msg st.dmChannel).outcome <;>
    simp [stepRecipient, h, outcomeSentInc, outcomeFailedInc, outcomeDmClosedInc] <;>
    omega

/-- The loop processes some initial prefix of the remaining recipients: it
advances `processed` by some `k ≤ length`, grows the counter sum by exactly
that `k`, and contacts exactly the members of that prefix, in order. -/
theorem runFrom_counts (lc : Bool) (total : Nat) (flag : Nat → Bool) (msg : String) :
    ∀ (rest : List (Member × RecipientEnv)) (st : LoopState),
      ∃ k, k ≤ rest.length ∧
        (runFrom lc total flag msg st rest).processed = st.processed + k ∧
        (runFrom lc total flag msg st rest).sent
            + (runFrom lc total flag msg st rest).failed
            + (runFrom lc total flag msg st rest).dmClosed
          = st.sent + st.failed + st.dmClosed + k ∧
        (runFrom lc total flag msg st rest).contacted
          = st.contacted ++ ((rest.take k).map (fun p => p.1.id)) := by
  intro rest
  induction rest with
  | nil => intro st; exact ⟨0, by simp [runFrom]⟩
  | cons p tl ih =>
    intro st
    obtain ⟨m, env⟩ := p
    by_cases h : flag st.reads
    · refine ⟨0, by simp, ?_, ?_, ?_⟩ <;> simp [runFrom, h]
    · obtain ⟨k, hk, hp, hs, hc⟩ := ih (stepRecipient lc total msg st m env)
      refine ⟨k + 1, by simp; omega, ?_, ?_, ?_⟩
      · rw [runFrom, if_neg h, hp, stepRecipient_processed]; omega
      · rw [runFrom, if_neg h, hs, stepRecipient_sum]; omega
      · rw [runFrom, if_neg h, hc, stepRecipient_contacted]
        simp [List.take_succ_cons]

/-- If the flag still reads `False` at the final check (line 163) and the
flag is monotone (it is only ever set during a run), then no head check
broke the loop: every remaining recipient was processed. -/
theorem runFrom_complete (lc : Bool) (total : Nat) (flag : Nat → Bool) (msg : String)
    (hmono : ∀ i j, i ≤ j → flag i = true → flag j = true) :
    ∀ (rest : List (Member × RecipientEnv)) (st : LoopState),
      flag (runFrom lc total flag msg st rest).reads = false →
      (runFrom lc total flag msg st rest).processed = st.processed + rest.length := by
  intro rest
  induction rest with
  | nil => intro st _; simp [runFrom]
  | cons p tl ih =>
    intro st hfin
    obtain ⟨m, env⟩ := p
    by_cases h : flag st.reads
    · exfalso
      rw [runFrom, if_pos h] at hfin
      have : flag (st.reads + 1) = true :=
        hmono st.reads (st.reads + 1) (Nat.le_succ _) h
      simp_all
    · rw [runFrom, if_neg h] at hfin ⊢
      rw [ih (stepRecipient lc total msg st m env) hfin, stepRecipient_processed]
      simp; omega

/-- If the loop fell short of processing every remaining recipient, some
flag read strictly before the final check returned `True`. -/
theorem runFrom_break_read (lc : Bool) (total : Nat) (flag : Nat → Bool) (msg : String) :
    ∀ (rest : List (Member × RecipientEnv)) (st : LoopState),
      (runFrom lc total flag msg st rest).processed < st.processed + rest.length →
      ∃ r, flag r = true ∧ r < (runFrom lc total flag msg st rest).reads := by
  intro rest
  induction rest with
  | nil => intro st hlt; simp [runFrom] at hlt
  | cons p tl ih =>
    intro st hlt
    obtain ⟨m, env⟩ := p
    by_cases h : flag st.reads
    · rw [runFrom, if_pos h]
      exact ⟨st.reads, h, by simp⟩
    · rw [runFrom, if_neg h] at hlt ⊢
      apply ih (stepRecipient lc total msg st m env)
      rw [stepRecipient_processed]
      simp at hlt ⊢; omega

/-- Head checks are two flag reads apart while recipients remain (head read
plus the pre-delay read of line 159).  If the flag already reads `True` at
index `st.reads + 2 * j`, at most `j` more recipients get processed; the
hypothesis ties the state's `processed` count to the actual remaining list,
as holds for the top-level run. -/
theorem runFrom_stop_bound (lc : Bool) (total : Nat) (flag : Nat → Bool) (msg : String) :
    ∀ (rest : List (Member × RecipientEnv)) (st : LoopState) (j : Nat),
      st.processed + rest.length = total →
      flag (st.reads + 2 * j) = true →
      (runFrom lc total flag msg st rest).processed ≤ st.processed + j := by
  intro rest
  induction rest with
  | nil => intro st j _ _; simp [runFrom]
  | cons p tl ih =>
    intro st j hinv hflag
    obtain ⟨m, env⟩ := p
    by_cases h : flag st.reads
    · rw [runFrom, if_pos h]; simp
    · match j with
      | 0 => simp at hflag; exact absurd hflag h
      | j' + 1 =>
        rw [runFrom, if_neg h]
        match tl with
        | [] =>
          rw [runFrom, stepRecipient_processed]
          omega
        | q :: tl' =>
          have hlt : st.processed + 1 < total := by
            simp at hinv; omega
          have hinv' : (stepRecipient lc total msg st m env).processed
              + (q :: tl').length = total := by
            rw [stepRecipient_processed]; simp at hinv ⊢; omega
          have hreads : (stepRecipient lc total msg st m env).reads
              = st.reads + 2 := by
            simp [stepRecipient, if_pos hlt]
          have hflag' : flag ((stepRecipient lc total msg st m env).reads + 2 * j')
              = true := by
            rw [hreads]
            have : st.reads + 2 + 2 * j' = st.reads + 2 * (j' + 1) := by omega
            rw [this]; exact hflag
          have := ih (stepRecipient lc total msg st m env) j' hinv' hflag'
          rw [stepRecipient_processed] at this
          omega

/-- Every counter triple recorded during the run is bounded by the run's
final counter sum (or was already in the incoming history). -/
theorem runFrom_history_bound (lc : Bool) (total : Nat) (flag : Nat → Bool) (msg : String) :
    ∀ (rest : List (Member × RecipientEnv)) (st : LoopState),
      ∀ x ∈ (runFrom lc total flag msg st rest).history,
        x ∈ st.history ∨
          x.1 + x.2.1 + x.2.2
            ≤ (runFrom lc total flag msg st rest).sent
              + (runFrom lc total flag msg st rest).failed
              + (runFrom lc total flag msg st rest).dmClosed := by
  intro rest
  induction rest with
  | nil => intro st x hx; exact Or.inl hx
  | cons p tl ih =>
    intro st x hx
    obtain ⟨m, env⟩ := p
    by_cases h : flag st.reads
    · rw [runFrom, if_pos h] at hx ⊢
      exact Or.inl hx
    · rw [runFrom, if_neg h] at hx ⊢
      rcases ih (stepRecipient lc total msg st m env) x hx with hin | hle
      · rw [stepRecipient_history] at hin
        rcases List.mem_append.1 hin with hin' | hnew
        · exact Or.inl hin'
        · right
          obtain ⟨k, _, _, hs, _⟩ :=
            runFrom_counts lc total flag msg tl (stepRecipient lc total msg st m env)
          simp at hnew
          subst hnew
          simp only [hs]
          omega
      · exact Or.inr hle

/-- Processing a recipient emits at most a rate-limit wait note, never a
final summary. -/
theorem processRecipient_no_final (lc : Bool) (env : RecipientEnv) (m : Member)
    (msg : String) (dmc : Option Nat) :
    ((processRecipient lc env m msg dmc).events).countP Event.isFinal = 0 := by
  obtain ⟨cd, sf, sr⟩ := env
  cases cd <;> cases sf <;> cases sr <;> cases dmc <;> cases lc <;>
    simp [processRecipient, Event.isFinal] <;>
    split_ifs <;>
    simp [Event.isFinal]

/-- A loop iteration emits notes and progress updates only, never a final
summary. -/
theorem stepRecipient_no_final (lc : Bool) (total : Nat) (msg : String)
    (st : LoopState) (m : Member) (env : RecipientEnv) :
    ((stepRecipient lc total msg st m env).events).countP Event.isFinal
      = st.events.countP Event.isFinal := by
  simp only [stepRecipient, List.countP_append]
  rw [processRecipient_no_final]
  split_ifs <;> simp [Event.isFinal]

/-- The dispatch loop emits no final summary event. -/
theorem runFrom_no_final (lc : Bool) (total : Nat) (flag : Nat → Bool) (msg : String) :
    ∀ (rest : List (Member × RecipientEnv)) (st : LoopState),
      ((runFrom lc total flag msg st rest).events).countP Event.isFinal
        = st.events.countP Event.isFinal := by
  intro rest
  induction rest with
  | nil => intro st; simp [runFrom]
  | cons p tl ih =>
    intro st
    obtain ⟨m, env⟩ := p
    by_cases h : flag st.reads
    · rw [runFrom, if_pos h]
    · rw [runFrom, if_neg h, ih, stepRecipient_no_final]

/-- The loop statistics are present exactly when the guild resolves and the
filtered recipient list is non-empty, and then they are `runStats` of the
filtered list. -/
theorem send_mass_dm_stats (lc g : Bool) (msg mode : String) (rids : List String)
    (all : List (Member × RecipientEnv)) (flag : Nat → Bool) (e : Option Bool) :
    (send_mass_dm lc g msg mode rids all flag e).stats =
      if g = true ∧ (filterMembers mode rids all).length ≠ 0 then
        some (runStats lc (filterMembers mode rids all).length flag msg
          (filterMembers mode rids all))
      else none := by
  cases g with
  | false => simp [send_mass_dm]
  | true =>
    by_cases h : (filterMembers mode rids all).length = 0 <;>
      simp [send_mass_dm, h]

/-- The counter-sum invariant of the loop statistics: every recorded point
is bounded by `total`, the final sum is bounded by `total`, and an
uncancelled (`complete`) run under a monotone flag reaches exactly
`total`. -/
theorem runStats_invariant (lc : Bool) (flag : Nat → Bool) (msg : String)
    (ms : List (Member × RecipientEnv))
    (hmono : ∀ i j, i ≤ j → flag i = true → flag j = true) :
    (∀ x ∈ (runStats lc ms.length flag msg ms).history,
        x.1 + x.2.1 + x.2.2 ≤ (runStats lc ms.length flag msg ms).total) ∧
    (runStats lc ms.length flag msg ms).sent
        + (runStats lc ms.length flag msg ms).failed
        + (runStats lc ms.length flag msg ms).dmClosed
      ≤ (runStats lc ms.length flag msg ms).total ∧
    ((runStats lc ms.length flag msg ms).status = Status.complete →
      (runStats lc ms.length flag msg ms).sent
          + (runStats lc ms.length flag msg ms).failed
          + (runStats lc ms.length flag msg ms).dmClosed
        = (runStats lc ms.length flag msg ms).total) := by
  obtain ⟨k, hk, hp, hsum, -⟩ := runFrom_counts lc ms.length flag msg ms initialState
  have h0p : initialState.processed = 0 := rfl
  have h0s : initialState.sent = 0 := rfl
  have h0f : initialState.failed = 0 := rfl
  have h0d : initialState.dmClosed = 0 := rfl
  rw [h0p, Nat.zero_add] at hp
  rw [h0s, h0f, h0d] at hsum
  simp only [Nat.zero_add, Nat.add_zero] at hsum
  simp only [runStats]
  refine ⟨?_, ?_, ?_⟩
  · intro x hx
    rcases runFrom_history_bound lc ms.length flag msg ms initialState x hx with h0 | hle
    · exact absurd h0 (by simp [initialState])
    · omega
  · omega
  · intro hcomp
    by_cases hfl : flag (runFrom lc ms.length flag msg initialState ms).reads
    · rw [if_pos hfl] at hcomp
      exact absurd hcomp (by simp)
    · have hall := runFrom_complete lc ms.length flag msg hmono ms initialState
        (by simpa using hfl)
      rw [h0p, Nat.zero_add] at hall
      omega

/-- C1: during every dispatch run the counter sum `sent + failed +
dm_closed` stays at or below `total` at every recorded point of the run,
the final sum is at most `total`, a run that terminates uncancelled with
status `complete` (the flag being monotone within a run) has final sum
exactly `total`, and a cancelled run can end with the sum strictly below
`total`. -/
theorem C1_counter_sum_invariant (lc g : Bool) (msg mode : String)
    (rids : List String) (all : List (Member × RecipientEnv)) (flag : Nat → Bool)
    (e : Option Bool) (s : FinalStats)
    (hmono : ∀ i j, i ≤ j → flag i = true → flag j = true)
    (hs : (send_mass_dm lc g msg mode rids all flag e).stats = some s) :
    (∀ x ∈ s.history, x.1 + x.2.1 + x.2.2 ≤ s.total) ∧
    s.sent + s.failed + s.dmClosed ≤ s.total ∧
    (s.status = Status.complete → s.sent + s.failed + s.dmClosed = s.total) ∧
    (∃ s2 : FinalStats,
      (send_mass_dm false true "m" "all" [] [(mA, envAllOk), (mB, envAllOk)]
          flagFromTwo none).stats = some s2 ∧
        s2.status = Status.stopped ∧ s2.sent + s2.failed + s2.dmClosed < s2.total) := by
  have hchar := send_mass_dm_stats lc g msg mode rids all flag e
  rw [hs] at hchar
  by_cases hc : g = true ∧ (filterMembers mode rids all).length ≠ 0
  · rw [if_pos hc] at hchar
    have hseq : s = runStats lc (filterMembers mode rids all).length flag msg
        (filterMembers mode rids all) := Option.some.inj hchar
    subst hseq
    have hinv := runStats_invariant lc flag msg (filterMembers mode rids all) hmono
    exact ⟨hinv.1, hinv.2.1, hinv.2.2, sDemoStopped, by decide, by decide, by decide⟩
  · rw [if_neg hc] at hchar
    simp at hchar

/-- C1 witness: the demo run over the single member `mA` with the flag
never set terminates complete with `1 + 0 + 0 = 1 = total`. -/
theorem C1_witness :
    sDemoComplete.sent + sDemoComplete.failed + sDemoComplete.dmClosed
      = sDemoComplete.total :=
  (C1_counter_sum_invariant false true "m" "all" [] [(mA, envAllOk)] flagNever none
    sDemoComplete (by intro i j _ hi; simp [flagNever] at hi)
    (by decide)).2.2.1 (by decide)

/-- If the flag is set by read index `2 * j` with `j` below the recipient
count, the loop stats show a stopped run with at most `j` recipients
processed, and the contacted members are exactly the processed prefix. -/
theorem runStats_stop (lc : Bool) (flag : Nat → Bool) (msg : String)
    (ms : List (Member × RecipientEnv)) (j : Nat)
    (hmono : ∀ i i2, i ≤ i2 → flag i = true → flag i2 = true)
    (hflag : flag (2 * j) = true) (hj : j < ms.length) :
    (runStats lc ms.length flag msg ms).status = Status.stopped ∧
    (runStats lc ms.length flag msg ms).processed ≤ j ∧
    (runStats lc ms.length flag msg ms).contacted
      = ((ms.take (runStats lc ms.length flag msg ms).processed).map
          (fun p => p.1.id)) := by
  obtain ⟨k, hk, hp, -, hcont⟩ := runFrom_counts lc ms.length flag msg ms initialState
  have h0p : initialState.processed = 0 := rfl
  have h0r : initialState.reads = 0 := rfl
  have h0c : initialState.contacted = [] := rfl
  rw [h0p, Nat.zero_add] at hp
  have hbound := runFrom_stop_bound lc ms.length flag msg ms initialState j
    (by rw [h0p, Nat.zero_add]) (by rw [h0r, Nat.zero_add]; exact hflag)
  rw [h0p, Nat.zero_add] at hbound
  have hlt : (runFrom lc ms.length flag msg initialState ms).processed
      < initialState.processed + ms.length := by
    rw [h0p, Nat.zero_add]; omega
  obtain ⟨r, hr, hrlt⟩ := runFrom_break_read lc ms.length flag msg ms initialState hlt
  have hstop : flag (runFrom lc ms.length flag msg initialState ms).reads = true :=
    hmono r _ (Nat.le_of_lt hrlt) hr
  simp only [runStats]
  refine ⟨by rw [if_pos hstop], hbound, ?_⟩
  rw [hcont, hp, h0c]
  simp

/-- C3: the cancellation flag is read at each loop head (two reads apart
while recipients remain); under a monotone flag, if the flag is set by the
time of the `j`-th head check (read index `2 * j`) with `j` below the
recipient count, then at most `j` recipients are processed, exactly an
initial prefix of the filtered recipient list is contacted (no channel
creation or send for any later recipient), and the run ends with status
`stopped`. -/
theorem C3_cancellation_stops_loop (lc : Bool) (msg mode : String)
    (rids : List String) (all : List (Member × RecipientEnv)) (flag : Nat → Bool)
    (e : Option Bool) (j : Nat) (s : FinalStats)
    (hmono : ∀ i i2, i ≤ i2 → flag i = true → flag i2 = true)
    (hs : (send_mass_dm lc true msg mode rids all flag e).stats = some s)
    (hflag : flag (2 * j) = true) (hj : j < s.total) :
    s.status = Status.stopped ∧ s.processed ≤ j ∧
    s.contacted = (((filterMembers mode rids all).take s.processed).map
      (fun p => p.1.id)) := by
  have hchar := send_mass_dm_stats lc true msg mode rids all flag e
  rw [hs] at hchar
  by_cases hc : (filterMembers mode rids all).length ≠ 0
  · rw [if_pos ⟨rfl, hc⟩] at hchar
    have hseq : s = runStats lc (filterMembers mode rids all).length flag msg
        (filterMembers mode rids all) := Option.some.inj hchar
    subst hseq
    have hj' : j < (filterMembers mode rids all).length := by
      simpa [runStats] using hj
    exact runStats_stop lc flag msg (filterMembers mode rids all) j hmono hflag hj'
  · exfalso
    rw [if_neg (by simpa using hc)] at hchar
    simp at hchar

/-- C3 witness: over `[mA, mB]` with the flag firing from read index 2 on
(i.e. set by the second head check), the demo run stops after one
recipient, contacting only the prefix `[mA]`. -/
theorem C3_witness :
    sDemoStopped.status = Status.stopped ∧ sDemoStopped.processed ≤ 1 ∧
    sDemoStopped.contacted =
      (((filterMembers "all" [] [(mA, envAllOk), (mB, envAllOk)]).take
        sDemoStopped.processed).map (fun p => p.1.id)) :=
  C3_cancellation_stops_loop false "m" "all" [] [(mA, envAllOk), (mB, envAllOk)]
    flagFromTwo none 1 sDemoStopped
    (by intro i i2 hle hi; simp only [flagFromTwo, decide_eq_true_eq] at hi ⊢; omega)
    (by decide) (by decide) (by decide)

/-- Every platform call issued for one recipient is either the channel
creation for that member or a send carrying the once-substituted text. -/
theorem processRecipient_calls_shape (lc : Bool) (env : RecipientEnv) (m : Member)
    (msg : String) (dmc : Option Nat) :
    ∀ c ∈ (processRecipient lc env m msg dmc).calls,
      c = PCall.createDm m.id ∨
        ∃ ch, c = PCall.send ch (pythonReplace msg "<user>" m.mention) := by
  obtain ⟨cd, sf, sr⟩ := env
  intro c hc
  cases cd <;> cases sf <;> cases sr <;> cases dmc <;>
    simp only [processRecipient] at hc <;>
    (try split at hc) <;>
    simp at hc <;>
    aesop

/-- C7: a forbidden response — from channel creation or from the message
send — classifies the recipient as DmClosed with no retry; an unclassified
exception or a non-429 HTTP error, whether from channel creation or from
the send, classifies the recipient as Failed with the call trace stopping
at the failing call (no retry); and no recipient outcome ever aborts the
loop: with the flag never set, every recipient of every environment list is
processed. -/
theorem C7_failure_classification (lc : Bool) (env : RecipientEnv) (m : Member)
    (msg : String) (dmc : Option Nat) :
    ((processRecipient lc env m msg dmc).outcome = Outcome.dmClosed ↔
      env.createDm = CallResult.forbiddenErr ∨
        (∃ ch, env.createDm = CallResult.ok ch ∧
          env.sendFirst = CallResult.forbiddenErr)) ∧
    (env.createDm = CallResult.otherExn →
      (processRecipient lc env m msg dmc).outcome = Outcome.failed ∧
      (processRecipient lc env m msg dmc).calls = [PCall.createDm m.id]) ∧
    (∀ sc ra, env.createDm = CallResult.httpExn sc ra → sc ≠ 429 →
      (processRecipient lc env m msg dmc).outcome = Outcome.failed ∧
      (processRecipient lc env m msg dmc).calls = [PCall.createDm m.id]) ∧
    (∀ ch, env.createDm = CallResult.ok ch → env.sendFirst = CallResult.otherExn →
      (processRecipient lc env m msg dmc).outcome = Outcome.failed ∧
      (processRecipient lc env m msg dmc).calls =
        [PCall.createDm m.id, PCall.send ch (pythonReplace msg "<user>" m.mention)]) ∧
    (∀ ch sc ra, env.createDm = CallResult.ok ch →
      env.sendFirst = CallResult.httpExn sc ra → sc ≠ 429 →
      (processRecipient lc env m msg dmc).outcome = Outcome.failed ∧
      (processRecipient lc env m msg dmc).calls =
        [PCall.createDm m.id, PCall.send ch (pythonReplace msg "<user>" m.mention)]) ∧
    (∀ (total : Nat) (rest : List (Member × RecipientEnv)) (st : LoopState),
      (runFrom lc total flagNever msg st rest).processed
        = st.processed + rest.length) := by
  obtain ⟨cd, sf, sr⟩ := env
  refine ⟨?_, ?_, ?_, ?_, ?_, ?_⟩
  · cases cd with
    | ok ch =>
      cases sf with
      | ok v => simp [processRecipient]
      | forbiddenErr => simp [processRecipient]
      | httpExn sc ra =>
        by_cases h : sc = 429
        · subst h
          cases sr <;> simp [processRecipient]
        · simp [processRecipient, h]
      | otherExn => simp [processRecipient]
    | forbiddenErr => simp [processRecipient]
    | httpExn sc ra =>
      by_cases h : sc = 429
      · subst h
        cases dmc <;> cases sr <;> simp [processRecipient]
      · simp [processRecipient, h]
    | otherExn => simp [processRecipient]
  · intro h
    simp only at h
    subst h
    exact ⟨rfl, rfl⟩
  · intro sc ra h hne
    simp only at h
    subst h
    simp [processRecipient, hne]
  · intro ch h1 h2
    simp only at h1 h2
    subst h1
    subst h2
    exact ⟨rfl, rfl⟩
  · intro ch sc ra h1 h2 hne
    simp only at h1 h2
    subst h1
    subst h2
    simp [processRecipient, hne]
  · intro total rest st
    exact runFrom_complete lc total flagNever msg
      (by intro i j _ hi; simp [flagNever] at hi) rest st rfl

/-- C7 witness: a forbidden channel creation resolves to DmClosed, an
unclassified exception and a 500 response each resolve to Failed. -/
theorem C7_witness :
    (processRecipient false envForbidden mA "hi" none).outcome = Outcome.dmClosed ∧
    (processRecipient false envOtherExn mA "hi" none).outcome = Outcome.failed ∧
    (processRecipient false ⟨CallResult.ok 11, CallResult.httpExn 500 none,
        CallResult.ok ()⟩ mA "hi" none).outcome = Outcome.failed :=
  ⟨(C7_failure_classification false envForbidden mA "hi" none).1.mpr (Or.inl rfl),
   ((C7_failure_classification false envOtherExn mA "hi" none).2.1 rfl).1,
   ((C7_failure_classification false ⟨CallResult.ok 11, CallResult.httpExn 500 none,
      CallResult.ok ()⟩ mA "hi" none).2.2.2.2.1 11 500 none rfl rfl (by decide)).1⟩

/-- C8: every message send issued for a recipient — first attempt and
rate-limit retry alike — carries exactly the template with every occurrence
of "<user>" replaced by the recipient's mention (computed once, before the
first attempt); in particular any two sends of the same recipient carry
identical text. -/
theorem C8_placeholder_substitution (lc : Bool) (env : RecipientEnv) (m : Member)
    (msg : String) (dmc : Option Nat) :
    (∀ ch t, PCall.send ch t ∈ (processRecipient lc env m msg dmc).calls →
      t = pythonReplace msg "<user>" m.mention) ∧
    (∀ ch t ch2 t2, PCall.send ch t ∈ (processRecipient lc env m msg dmc).calls →
      PCall.send ch2 t2 ∈ (processRecipient lc env m msg dmc).calls → t = t2) := by
  have hmain : ∀ ch t, PCall.send ch t ∈ (processRecipient lc env m msg dmc).calls →
      t = pythonReplace msg "<user>" m.mention := by
    intro ch t ht
    rcases processRecipient_calls_shape lc env m msg dmc _ ht with h | ⟨ch2, h⟩
    · exact absurd h (by simp)
    · exact (PCall.send.inj h).2
  exact ⟨hmain, fun ch t ch2 t2 h1 h2 => (hmain ch t h1).trans (hmain ch2 t2 h2).symm⟩

/-- C8 witness: in the demo retry run the retried send carries the text
"hi <@1>", which is exactly the substituted template. -/
theorem C8_witness :
    ("hi <@1>" : String) = pythonReplace "hi <user>" "<user>" mA.mention ∧
    ("hi <@1>" : String) = "hi <@1>" :=
  ⟨(C8_placeholder_substitution false envSend429 mA "hi <user>" none).1 11 "hi <@1>"
      (by decide),
   (C8_placeholder_substitution false envSend429 mA "hi <user>" none).2 11 "hi <@1>"
      11 "hi <@1>" (by decide) (by decide)⟩

/-- C2 counterexample: when the channel-creation call itself returns the
rate limit (no channel ever bound), the rate-limited call is issued exactly
once — the trace holds a single channel creation and no second attempt of
it — and the recipient resolves to Failed even though the platform would
accept any retried call, contradicting "retries the same call exactly once,
and if the retry succeeds the recipient counts as sent". -/
theorem C2_counterexample :
    (processRecipient false envCreate429 mA "hi" none).calls = [PCall.createDm 1] ∧
    (processRecipient false envCreate429 mA "hi" none).outcome = Outcome.failed ∧
    (processRecipient false envCreate429 mA "hi" none).backoff = some 5 :=
  ⟨rfl, rfl, rfl⟩

/-- C2 amended: for a rate-limited *message-send* call the engine waits the
server-advised duration (default 5 when absent) and retries that same send
exactly once with identical channel and text; a successful retry resolves
to SentAfterRetry (counted as sent), and any failing retry — a second rate
limit included — resolves to Failed with no further call.  A rate limit
raised by the channel-creation call triggers the same backoff but is never
followed by a second channel-creation attempt. -/
theorem C2_send_rate_limit_single_retry (lc : Bool) (env : RecipientEnv) (m : Member)
    (msg : String) (dmc : Option Nat) (ch : Nat) (ra : Option ℚ)
    (hcd : env.createDm = CallResult.ok ch)
    (hsf : env.sendFirst = CallResult.httpExn 429 ra) :
    (processRecipient lc env m msg dmc).backoff = some (ra.getD 5) ∧
    (processRecipient lc env m msg dmc).calls =
      [PCall.createDm m.id, PCall.send ch (pythonReplace msg "<user>" m.mention),
       PCall.send ch (pythonReplace msg "<user>" m.mention)] ∧
    (env.sendRetry = CallResult.ok () →
      (processRecipient lc env m msg dmc).outcome = Outcome.sentAfterRetry ∧
      outcomeSentInc (processRecipient lc env m msg dmc).outcome = 1) ∧
    (env.sendRetry ≠ CallResult.ok () →
      (processRecipient lc env m msg dmc).outcome = Outcome.failed) := by
  obtain ⟨cd, sf, sr⟩ := env
  simp only at hcd hsf
  subst hcd
  subst hsf
  cases sr with
  | ok v =>
    cases v
    exact ⟨rfl, rfl, fun _ => ⟨rfl, rfl⟩, fun h => absurd rfl h⟩
  | forbiddenErr => exact ⟨rfl, rfl, fun h => by simp at h, fun _ => rfl⟩
  | httpExn sc2 ra2 => exact ⟨rfl, rfl, fun h => by simp at h, fun _ => rfl⟩
  | otherExn => exact ⟨rfl, rfl, fun h => by simp at h, fun _ => rfl⟩

/-- C2 witness: the demo retry environment waits the default 5 time-units
and resolves to SentAfterRetry. -/
theorem C2_witness :
    (processRecipient false envSend429 mA "hi" none).backoff = some 5 ∧
    (processRecipient false envSend429 mA "hi" none).outcome
      = Outcome.sentAfterRetry :=
  ⟨(C2_send_rate_limit_single_retry false envSend429 mA "hi" none 11 none rfl rfl).1,
   ((C2_send_rate_limit_single_retry false envSend429 mA "hi" none 11 none rfl
      rfl).2.2.1 rfl).1⟩

/-- C10 counterexample: two recipients, the first creating channel 11
successfully, the second hitting a rate limit on channel creation: the
retry goes out on the *stale* channel 11 carrying the second recipient's
text and succeeds, so both recipients count as sent and none as failed —
the retry neither always raises nor always yields Failed. -/
theorem C10_counterexample :
    (send_mass_dm false true "hi <user>" "all" [] [(mA, envAllOk), (mB, envCreate429)]
        flagNever none).stats =
      some ⟨2, 0, 0, 2, Status.complete, 2, [1, 2],
        [PCall.createDm 1, PCall.send 11 "hi <@1>",
         PCall.createDm 2, PCall.send 11 "hi <@2>"],
        [(1, 0, 0), (2, 0, 0)]⟩ := by
  decide

/-- C10 amended: on a rate limit from the channel-creation call the single
retry is a message send on whatever the loop variable `dm_channel`
currently holds: with no earlier successful creation the variable is
unbound, the retry raises at once, no send goes out and the recipient
counts as failed; with an earlier bound channel the retry sends the
recipient's substituted text on that stale channel, and a platform accept
resolves to SentAfterRetry (counted as sent). -/
theorem C10_create_rate_limit_retry (lc : Bool) (env : RecipientEnv) (m : Member)
    (msg : String) (ra : Option ℚ)
    (hcd : env.createDm = CallResult.httpExn 429 ra) :
    ((processRecipient lc env m msg none).outcome = Outcome.failed ∧
      (processRecipient lc env m msg none).calls = [PCall.createDm m.id] ∧
      (processRecipient lc env m msg none).backoff = some (ra.getD 5)) ∧
    (∀ ch, env.sendRetry = CallResult.ok () →
      (processRecipient lc env m msg (some ch)).outcome = Outcome.sentAfterRetry ∧
      (processRecipient lc env m msg (some ch)).calls =
        [PCall.createDm m.id,
         PCall.send ch (pythonReplace msg "<user>" m.mention)]) := by
  obtain ⟨cd, sf, sr⟩ := env
  simp only at hcd
  subst hcd
  refine ⟨⟨rfl, rfl, rfl⟩, ?_⟩
  intro ch hret
  simp only at hret
  subst hret
  exact ⟨rfl, rfl⟩

/-- C10 witness: the unbound-variable case fails, the stale-channel case
resolves to SentAfterRetry. -/
theorem C10_witness :
    (processRecipient false envCreate429 mA "hi" (some 7)).outcome
      = Outcome.sentAfterRetry ∧
    (processRecipient false envCreate429 mB "x" none).outcome = Outcome.failed :=
  ⟨((C10_create_rate_limit_retry false envCreate429 mA "hi" none rfl).2 7 rfl).1,
   (C10_create_rate_limit_retry false envCreate429 mB "x" none rfl).1.1⟩

/-- A run that enters the dispatch loop emits exactly one final summary
event, and that event carries the loop statistics verbatim. -/
theorem loopEvents_summary (lc : Bool) (total : Nat) (flag : Nat → Bool)
    (msg : String) (ms : List (Member × RecipientEnv)) :
    (loopEvents lc total flag msg ms).countP Event.isFinal = 1 ∧
    Event.finalSummary ⟨(runStats lc total flag msg ms).sent,
      (runStats lc total flag msg ms).failed,
      (runStats lc total flag msg ms).dmClosed,
      (runStats lc total flag msg ms).total,
      (runStats lc total flag msg ms).status⟩
      ∈ loopEvents lc total flag msg ms := by
  constructor
  · simp only [loopEvents, List.countP_append]
    rw [runFrom_no_final]
    cases lc <;> simp [Event.isFinal, initialState]
  · simp only [loopEvents, runStats]
    simp [List.mem_append]

/-- C4 counterexample: with zero recipients after filtering the dispatch
returns early with two plain notices: it emits no completion or summary
event at all (in particular none carrying `total = 0`) and produces no loop
statistics. -/
theorem C4_counterexample :
    (send_mass_dm false true "hi" "all" [] [] flagNever none).events =
      [Event.note fetchingText, Event.note noMembersText] ∧
    ((send_mass_dm false true "hi" "all" [] [] flagNever none).events).countP
        Event.isFinal = 0 ∧
    (send_mass_dm false true "hi" "all" [] [] flagNever none).stats = none := by
  decide

/-- C4 amended: every run that enters the dispatch loop emits exactly one
final summary event, carrying precisely the final counters, the total and
the terminal status, which is always `complete` or `stopped`; the
zero-recipient exit (and the guild-not-found exit) instead returns early
with plain notices and no summary event. -/
theorem C4_final_summary_exactly_once (lc g : Bool) (msg mode : String)
    (rids : List String) (all : List (Member × RecipientEnv)) (flag : Nat → Bool)
    (e : Option Bool) (s : FinalStats)
    (hs : (send_mass_dm lc g msg mode rids all flag e).stats = some s) :
    ((send_mass_dm lc g msg mode rids all flag e).events).countP Event.isFinal = 1 ∧
    Event.finalSummary ⟨s.sent, s.failed, s.dmClosed, s.total, s.status⟩
      ∈ (send_mass_dm lc g msg mode rids all flag e).events ∧
    (s.status = Status.complete ∨ s.status = Status.stopped) := by
  cases g with
  | false => simp [send_mass_dm] at hs
  | true =>
    by_cases hlen : (filterMembers mode rids all).length = 0
    · simp [send_mass_dm, hlen] at hs
    · have hchar := send_mass_dm_stats lc true msg mode rids all flag e
      rw [hs, if_pos ⟨rfl, hlen⟩] at hchar
      have hseq := Option.some.inj hchar
      subst hseq
      have hev : (send_mass_dm lc true msg mode rids all flag e).events
          = loopEvents lc (filterMembers mode rids all).length flag msg
              (filterMembers mode rids all) := by
        simp [send_mass_dm, hlen]
      obtain ⟨h1, h2⟩ := loopEvents_summary lc (filterMembers mode rids all).length
        flag msg (filterMembers mode rids all)
      rw [hev]
      refine ⟨h1, h2, ?_⟩
      simp only [runStats]
      by_cases hfl : flag (runFrom lc (filterMembers mode rids all).length flag msg
          initialState (filterMembers mode rids all)).reads
      · right; rw [if_pos hfl]
      · left; rw [if_neg hfl]

/-- C4 witness: the demo complete run emits exactly one final summary. -/
theorem C4_witness :
    ((send_mass_dm false true "m" "all" [] [(mA, envAllOk)] flagNever
        none).events).countP Event.isFinal = 1 :=
  (C4_final_summary_exactly_once false true "m" "all" [] [(mA, envAllOk)] flagNever
    none sDemoComplete (by decide)).1

/-- C5 counterexample: with a live session under the same identifier whose
cancellation flag is already set (`some true`), starting a new dispatch
does not fail with any error: the start overwrites the registry entry with
`some false` — erasing the pending stop request — and the new run proceeds
to completion. -/
theorem C5_counterexample :
    openSession (some true) = (some false, true) ∧
    (send_mass_dm false true "m" "all" [] [(mA, envAllOk)] flagNever
        (some true)).stats = some sDemoComplete :=
  ⟨rfl, by decide⟩

/-- C5 amended: a dispatch start never fails on a duplicate identifier:
lines 74-75 unconditionally overwrite the registry entry with a fresh
uncancelled flag, and — whenever the guild resolves — the run is entirely
independent of any pre-existing session entry. -/
theorem C5_start_overwrites_existing (lc : Bool) (msg mode : String)
    (rids : List String) (all : List (Member × RecipientEnv)) (flag : Nat → Bool)
    (e1 e2 : Option Bool) :
    openSession e1 = (some false, true) ∧
    send_mass_dm lc true msg mode rids all flag e1
      = send_mass_dm lc true msg mode rids all flag e2 :=
  ⟨rfl, rfl⟩

/-- C6 counterexample: the zero-recipient exit path returns with the
session's registry entry still present (`some false`): the entry is not
removed on this exit path. -/
theorem C6_counterexample :
    (send_mass_dm false true "hi" "all" [] [] flagNever none).entryAfter
      = some false ∧
    (send_mass_dm false true "hi" "all" [] [] flagNever none).entryAfter ≠ none := by
  decide

/-- C6 amended: the registry entry is removed whenever the dispatch loop
actually runs (loop statistics present imply the entry is gone); the
guild-not-found exit leaves the registry exactly as it was (no entry is
created); but the zero-recipient early return leaves the freshly written
entry (`some false`) in the registry. -/
theorem C6_registry_cleanup (lc g : Bool) (msg mode : String) (rids : List String)
    (all : List (Member × RecipientEnv)) (flag : Nat → Bool) (e : Option Bool) :
    ((send_mass_dm lc g msg mode rids all flag e).stats.isSome = true →
      (send_mass_dm lc g msg mode rids all flag e).entryAfter = none) ∧
    (g = false → (send_mass_dm lc g msg mode rids all flag e).entryAfter = e) ∧
    (g = true → (filterMembers mode rids all).length = 0 →
      (send_mass_dm lc g msg mode rids all flag e).entryAfter = some false) := by
  refine ⟨?_, ?_, ?_⟩
  · intro h
    cases g with
    | false => simp [send_mass_dm] at h
    | true =>
      by_cases hlen : (filterMembers mode rids all).length = 0
      · simp [send_mass_dm, hlen] at h
      · simp [send_mass_dm, hlen]
  · intro hg
    subst hg
    rfl
  · intro hg hlen
    subst hg
    simp [send_mass_dm, hlen, openSession]

/-- C6 witness: a run over one recipient removes the entry; a
guild-not-found exit leaves a pre-existing entry untouched. -/
theorem C6_witness :
    (send_mass_dm false true "m" "all" [] [(mA, envAllOk)] flagNever none).entryAfter
      = none ∧
    (send_mass_dm false false "m" "all" [] [] flagNever (some true)).entryAfter
      = some true :=
  ⟨(C6_registry_cleanup false true "m" "all" [] [(mA, envAllOk)] flagNever none).1
      (by decide),
   (C6_registry_cleanup false false "m" "all" [] [] flagNever (some true)).2.1 rfl⟩

/-- C9: the delay accepted at the boundary always lies in the interval
[0.5, 30]; an input that fails to parse as a number defaults to 2.0. -/
theorem C9_delay_clamped (parse : String → Option ℚ) (value : String) :
    (1/2 : ℚ) ≤ on_submit_delay parse value ∧
    on_submit_delay parse value ≤ 30 ∧
    (parse (if value = "" then "2" else value) = none →
      on_submit_delay parse value = 2) := by
  cases hp : parse (if value = "" then "2" else value) with
  | none =>
    simp only [on_submit_delay, hp]
    exact ⟨by norm_num, by norm_num, fun _ => by trivial⟩
  | some d =>
    simp only [on_submit_delay, hp]
    refine ⟨le_max_left _ _, ?_, ?_⟩
    · exact max_le (by norm_num) (min_le_right _ _)
    · intro h
      simp at h

/-- C9 witness: an unparsable input yields the default delay 2. -/
theorem C9_witness : on_submit_delay (fun _ => none) "abc" = 2 :=
  (C9_delay_clamped (fun _ => none) "abc").2.2 rfl

end DMSend
